import Mathlib

/-!
Shallow embedding of `fcm-v1-http2` (src/index.js): token batching,
client construction over the module-global `config`, the response
classifier of `request.on('end')`, the retry decision of `errorHandler`,
and the batch/operation aggregation of `processBatch` / `sendMulticast`.
-/

namespace FcmHttp2

/-! Batching (src/index.js lines 28-38).
`batchLimit = Math.ceil(tokens.length / config.maxConcurrentConnections)`,
raised to `maxConcurrentStreamsAllowed` when `batchLimit` is less than or
equal to it; then the token list is sliced into consecutive chunks of
`batchLimit` tokens each. -/

def ceilDiv (n c : Nat) : Nat :=
  (n + c - 1) / c

def batchLimit (n maxConn maxStreams : Nat) : Nat :=
  let cand := ceilDiv n maxConn
  if cand ≤ maxStreams then maxStreams else cand

/-- Fuel-indexed chunking loop; `fuel = tokens.length` suffices when the
limit is positive (the JS `for` loop advances `start` by `batchLimit` and,
with the config defaults, the limit is never zero). -/
def makeBatchesAux : Nat → List String → Nat → List (List String)
  | 0, _, _ => []
  | fuel + 1, ts, limit =>
    if ts.isEmpty then []
    else ts.take limit :: makeBatchesAux fuel (ts.drop limit) limit

def makeBatches (ts : List String) (limit : Nat) : List (List String) :=
  makeBatchesAux ts.length ts limit

theorem makeBatchesAux_congr (limit : Nat) (hl : 0 < limit) :
    ∀ f1 f2 (ts : List String), ts.length ≤ f1 → ts.length ≤ f2 →
      makeBatchesAux f1 ts limit = makeBatchesAux f2 ts limit := by
  intro f1
  induction f1 with
  | zero =>
    intro f2 ts h1 _
    have hts : ts = [] := List.eq_nil_of_length_eq_zero (Nat.le_zero.mp h1)
    subst hts
    cases f2 <;> simp [makeBatchesAux]
  | succ f1 ih =>
    intro f2 ts h1 h2
    by_cases hts : ts = []
    · subst hts
      cases f2 <;> simp [makeBatchesAux]
    · have hlen : 0 < ts.length := List.length_pos.mpr hts
      cases f2 with
      | zero => omega
      | succ f2 =>
        simp only [makeBatchesAux, List.isEmpty_eq_false_iff_exists_mem]
        have hemp : ts.isEmpty = false := by
          cases ts with
          | nil => exact absurd rfl hts
          | cons a l => rfl
        rw [hemp]
        simp only [Bool.false_eq_true, if_false]
        have hd : (ts.drop limit).length ≤ f1 := by
          simp only [List.length_drop]; omega
        have hd2 : (ts.drop limit).length ≤ f2 := by
          simp only [List.length_drop]; omega
        rw [ih f2 (ts.drop limit) hd hd2]

/-- One-step unfolding of `makeBatches`, mirroring a single iteration of
the slicing loop. -/
theorem makeBatches_eq (ts : List String) (limit : Nat) (hl : 0 < limit) :
    makeBatches ts limit =
      if ts = [] then [] else ts.take limit :: makeBatches (ts.drop limit) limit := by
  by_cases hts : ts = []
  · subst hts; simp [makeBatches, makeBatchesAux]
  · have hlen : 0 < ts.length := List.length_pos.mpr hts
    simp only [if_neg hts]
    show makeBatchesAux ts.length ts limit = _
    cases hn : ts.length with
    | zero => omega
    | succ n =>
      simp only [makeBatchesAux]
      have hemp : ts.isEmpty = false := by
        cases ts with
        | nil => exact absurd rfl hts
        | cons a l => rfl
      rw [hemp]
      simp only [Bool.false_eq_true, if_false]
      have : makeBatchesAux n (ts.drop limit) limit
           = makeBatchesAux (ts.drop limit).length (ts.drop limit) limit := by
        apply makeBatchesAux_congr limit hl
        · simp only [List.length_drop]; omega
        · exact Nat.le_refl _
      rw [this]
      rfl

theorem makeBatches_nil (limit : Nat) : makeBatches [] limit = [] := by
  simp [makeBatches, makeBatchesAux]

theorem makeBatches_eq_nil_iff (ts : List String) (limit : Nat) (hl : 0 < limit) :
    makeBatches ts limit = [] ↔ ts = [] := by
  constructor
  · intro h
    by_contra hts
    rw [makeBatches_eq ts limit hl, if_neg hts] at h
    exact List.cons_ne_nil _ _ h
  · intro h; subst h; exact makeBatches_nil limit

/-- Concatenating the batches recovers the token list exactly, in order. -/
theorem makeBatches_join (limit : Nat) (hl : 0 < limit) :
    ∀ ts : List String, (makeBatches ts limit).flatten = ts := by
  intro ts
  generalize hn : ts.length = n
  induction n using Nat.strong_induction_on generalizing ts with
  | _ n ih =>
    rw [makeBatches_eq ts limit hl]
    by_cases hts : ts = []
    · simp [hts]
    · rw [if_neg hts]
      simp only [List.flatten_cons]
      have hlen : 0 < ts.length := List.length_pos.mpr hts
      have hdrop : (ts.drop limit).length < n := by
        simp only [List.length_drop]; omega
      rw [ih (ts.drop limit).length (by omega) (ts.drop limit) rfl]
      exact List.take_append_drop limit ts

/-- Every batch holds at most `limit` tokens and is nonempty. -/
theorem makeBatches_mem_length (limit : Nat) (hl : 0 < limit) :
    ∀ ts : List String, ∀ b ∈ makeBatches ts limit, b.length ≤ limit ∧ b ≠ [] := by
  intro ts
  generalize hn : ts.length = n
  induction n using Nat.strong_induction_on generalizing ts with
  | _ n ih =>
    intro b hb
    rw [makeBatches_eq ts limit hl] at hb
    by_cases hts : ts = []
    · simp [hts] at hb
    · rw [if_neg hts] at hb
      have hlen : 0 < ts.length := List.length_pos.mpr hts
      rcases List.mem_cons.mp hb with hb | hb
      · subst hb
        constructor
        · simp only [List.length_take]; omega
        · intro hcon
          have := congrArg List.length hcon
          simp only [List.length_take, List.length_nil] at this
          omega
      · have hdrop : (ts.drop limit).length < n := by
          simp only [List.length_drop]; omega
        exact ih (ts.drop limit).length (by omega) (ts.drop limit) rfl b hb

/-- Every batch except possibly the last holds exactly `limit` tokens. -/
theorem makeBatches_dropLast_length (limit : Nat) (hl : 0 < limit) :
    ∀ ts : List String, ∀ b ∈ (makeBatches ts limit).dropLast, b.length = limit := by
  intro ts
  generalize hn : ts.length = n
  induction n using Nat.strong_induction_on generalizing ts with
  | _ n ih =>
    intro b hb
    rw [makeBatches_eq ts limit hl] at hb
    by_cases hts : ts = []
    · simp [hts] at hb
    · rw [if_neg hts] at hb
      have hlen : 0 < ts.length := List.length_pos.mpr hts
      by_cases hrest : makeBatches (ts.drop limit) limit = []
      · rw [hrest] at hb
        simp [List.dropLast] at hb
      · have hdne : ts.drop limit ≠ [] :=
          fun hcon => hrest ((makeBatches_eq_nil_iff _ limit hl).mpr hcon)
        have hgt : limit < ts.length := by
          by_contra hle
          exact hdne (List.drop_eq_nil_of_le (by omega))
        obtain ⟨r, rs, hr⟩ := List.exists_cons_of_ne_nil hrest
        rw [hr] at hb
        rw [List.dropLast_cons₂] at hb
        rcases List.mem_cons.mp hb with hb | hb
        · subst hb
          simp only [List.length_take]; omega
        · have hdrop : (ts.drop limit).length < n := by
            simp only [List.length_drop]; omega
          apply ih (ts.drop limit).length (by omega) (ts.drop limit) rfl b
          rw [hr]
          exact hb

/-- Batch count times batch size covers the token list. -/
theorem makeBatches_count_mul (limit : Nat) (hl : 0 < limit) :
    ∀ ts : List String, ts.length ≤ (makeBatches ts limit).length * limit := by
  intro ts
  generalize hn : ts.length = n
  induction n using Nat.strong_induction_on generalizing ts with
  | _ n ih =>
    rw [makeBatches_eq ts limit hl]
    by_cases hts : ts = []
    · subst hts
      simp only [List.length_nil] at hn
      simp [makeBatches_nil]
      omega
    · rw [if_neg hts]
      have hlen : 0 < ts.length := List.length_pos.mpr hts
      have hdrop : (ts.drop limit).length < n := by
        simp only [List.length_drop]; omega
      have hrec := ih (ts.drop limit).length (by omega) (ts.drop limit) rfl
      simp only [List.length_cons, List.length_drop] at hrec ⊢
      have : (makeBatches (ts.drop limit) limit).length * limit + limit
           = ((makeBatches (ts.drop limit) limit).length + 1) * limit := by ring
      omega

/-! String `includes`, modelled on `List Char` so that concrete instances
evaluate inside the kernel. Mirrors JS `String.prototype.includes`. -/

def charsStartWith : List Char → List Char → Bool
  | _, [] => true
  | [], _ :: _ => false
  | c :: cs, d :: ds => c == d && charsStartWith cs ds

def charsContain : List Char → List Char → Bool
  | [], pat => pat.isEmpty
  | c :: cs, pat => charsStartWith (c :: cs) pat || charsContain cs pat

def strIncludes (s pat : String) : Bool :=
  charsContain s.data pat.data

/-! Data model: parsed FCM error objects (the shape read by the `end`
handler, src/index.js lines 230-261) and internally thrown / propagated
JS errors. `Option` marks a field that may be absent (`undefined`). -/

structure ErrorDetail where
  errorCode : Option String
deriving DecidableEq

structure FcmErrorObj where
  details : Option (List ErrorDetail)
  code : Option Int
  status : Option String
  message : Option String
deriving DecidableEq

inductive JsError
  | projectIdError
  | missingServiceAccount
  | authError
  | typeError
  | parseError
  | gatewayError (e : FcmErrorObj)
  | transportError (code : Option Int)
deriving DecidableEq

/-! Configuration (src/index.js lines 6-21). `config` is a single
module-level variable: every `Client` construction overwrites it. -/

structure ServiceAccount where
  project_id : Option String
  client_email : Option String
  private_key : Option String
deriving DecidableEq

structure Options where
  serviceAccount : Option ServiceAccount
  maxConcurrentConnections : Option Nat
  maxConcurrentStreamsAllowed : Option Nat
deriving DecidableEq

/-- JS `a || d` over an optional numeric option: `undefined` and `0` are
falsy, so both fall back to the default. -/
def jsOrNat : Option Nat → Nat → Nat
  | none, d => d
  | some 0, d => d
  | some (n + 1), _ => n + 1

structure ClientConfig where
  serviceAccount : ServiceAccount
  maxConcurrentConnections : Nat
  maxConcurrentStreamsAllowed : Nat
deriving DecidableEq

/-- The `config` object assembled by the constructor. When the caller
omitted the service account the constructor throws right after this
assignment and the degenerate placeholder is never used. -/
def mkConfig (o : Options) : ClientConfig :=
  { serviceAccount := o.serviceAccount.getD ⟨none, none, none⟩
    maxConcurrentConnections := jsOrNat o.maxConcurrentConnections 10
    maxConcurrentStreamsAllowed := jsOrNat o.maxConcurrentStreamsAllowed 100 }

/-- Module state: the one shared `config` binding of src/index.js line 6. -/
structure ModuleState where
  config : ClientConfig
deriving DecidableEq

/-- `Client(options)`: assigns the module-global `config`, then throws if
no service account was provided (the global is already overwritten at
that point). Returns the new module state and the thrown error, if any. -/
def clientCtor (_st : ModuleState) (o : Options) : ModuleState × Option JsError :=
  (⟨mkConfig o⟩, if o.serviceAccount.isSome then none else some .missingServiceAccount)

/-- Degenerate state standing for the initial `let config = \x7b\x7d`. -/
def initialState : ModuleState :=
  ⟨⟨⟨none, none, none⟩, 0, 0⟩⟩

/-- JS truthiness of the `project_id` string read at line 44:
`undefined` and the empty string are falsy. -/
def jsTruthyStr : Option String → Bool
  | none => false
  | some s => !s.isEmpty

/-! Per-request terminal results and batch/operation aggregation
(`processBatch` lines 116-139, `sendMulticast` lines 52-81).
`async.eachLimit` invokes its final callback with the first error a
request's `doneCallback` reported, aborting the batch; otherwise it
completes without error and `processBatch` resolves with the
connection's `unregisteredTokens` list. -/

inductive ReqResult
  | delivered
  | invalid
  | failed (e : JsError)
deriving DecidableEq

def reqFailure : String × ReqResult → Option JsError
  | (_, .failed e) => some e
  | _ => none

/-- First request error in completion order (modelled as list order),
i.e. the error `async.eachLimit` hands to its final callback. -/
def firstFailure (rs : List (String × ReqResult)) : Option JsError :=
  rs.findSome? reqFailure

/-- The `client.unregisteredTokens` accumulator: one push per request
classified as an invalid recipient (src/index.js line 241). -/
def batchUnregistered (rs : List (String × ReqResult)) : List String :=
  rs.filterMap (fun r => match r.2 with | .invalid => some r.1 | _ => none)

/-- `processBatch` outcome: reject with the first request error reported
to `async.eachLimit`, else resolve with the unregistered-token list. -/
def processBatchModel (rs : List (String × ReqResult)) : Except JsError (List String) :=
  match firstFailure rs with
  | some e => .error e
  | none => .ok (batchUnregistered rs)

inductive SendOutcome
  | resolved (unregistered : List String)
  | rejected (e : JsError)
  | pending
deriving DecidableEq

def batchError : Except JsError (List String) → Option JsError
  | .error e => some e
  | .ok _ => none

def batchOk : Except JsError (List String) → Option (List String)
  | .ok l => some l
  | .error _ => none

/-- Settlement of the `sendMulticast` promise from the per-batch results:
any batch rejection rejects the operation (the `.catch` at line 71); with
zero batches no completion callback ever runs, so `resolve` (guarded by
`done === tokenBatches.length` inside that callback) is unreachable and
the promise stays pending; otherwise the operation resolves with the
concatenation of the batches' unregistered-token lists. -/
def aggregateSend (brs : List (Except JsError (List String))) : SendOutcome :=
  match brs.findSome? batchError with
  | some e => .rejected e
  | none =>
    match brs with
    | [] => .pending
    | _ => .resolved (brs.filterMap batchOk).flatten

/-- Network calls observable during a send operation. -/
inductive NetCall
  | tokenFetch
  | httpPost (path : String)
deriving DecidableEq

/-- `sendMulticast(message, tokens)` (lines 24-82): compute the batch
limit and batches, reject before any network activity when the service
account has no usable `project_id`, otherwise fetch the bearer token
once (rejecting on auth failure) and run one `processBatch` per batch.
`fetch` abstracts the token-fetch outcome and `runBatch` the terminal
outcome of each batch; the returned list records the network calls made
(initial dispatches; retries would only append further posts). -/
def sendMulticastModel (cfg : ClientConfig) (tokens : List String)
    (fetch : Except JsError String)
    (runBatch : List String → Except JsError (List String)) :
    SendOutcome × List NetCall :=
  let limit := batchLimit tokens.length cfg.maxConcurrentConnections
    cfg.maxConcurrentStreamsAllowed
  let batches := makeBatches tokens limit
  if !jsTruthyStr cfg.serviceAccount.project_id then
    (.rejected .projectIdError, [])
  else
    match fetch with
    | .error e => (.rejected e, [.tokenFetch])
    | .ok _tok =>
      (aggregateSend (batches.map runBatch),
       .tokenFetch :: batches.flatten.map (fun _d =>
         .httpPost ("/v1/projects/" ++ cfg.serviceAccount.project_id.getD ""
           ++ "/messages:send")))

/-! Response classification (the `request.on('end')` handler,
src/index.js lines 230-261). Property accesses on `undefined` throw a
TypeError, which the surrounding `try`/`catch` routes to `errorHandler`. -/

inductive JsException
  | typeErr
deriving DecidableEq

/-- Terminal routing of one fully-received response. `transient` means
`errorHandler` was invoked (with the given `err.code`, `none` when the
error object carries no numeric code); `fatal` means
`doneCallback(response.error)`. -/
inductive Outcome
  | delivered
  | invalidRecipient
  | transient (errCode : Option Int)
  | fatal (e : FcmErrorObj)
deriving DecidableEq

/-- Evaluation of
`response.error.details && response.error.details[0].errorCode === 'UNREGISTERED'`:
an absent `details` is falsy and short-circuits; a present empty array is
truthy, so `details[0]` is `undefined` and reading `.errorCode` throws. -/
def evalUnregisteredCond : Option (List ErrorDetail) → Except JsException Bool
  | none => .ok false
  | some [] => .error .typeErr
  | some (d :: _) => .ok (d.errorCode == some "UNREGISTERED")

/-- Evaluation of
`response.error.code === 400 && response.error.status === 'INVALID_ARGUMENT' && response.error.message.includes('not a valid FCM registration token')`:
short-circuiting, and `.includes` on an `undefined` message throws. -/
def evalInvalidTokenCond (e : FcmErrorObj) : Except JsException Bool :=
  if e.code == some 400 && e.status == some "INVALID_ARGUMENT" then
    match e.message with
    | none => .error .typeErr
    | some m => .ok (strIncludes m "not a valid FCM registration token")
  else
    .ok false

def is5xx : Option Int → Bool
  | some c => decide (500 ≤ c ∧ c < 600)
  | none => false

/-- Body of the `try` block once `JSON.parse` succeeded: `none` stands
for a parsed body with no (truthy) `error` field. -/
def classifyParsed : Option FcmErrorObj → Except JsException Outcome
  | none => .ok .delivered
  | some e =>
    match evalUnregisteredCond e.details with
    | .error ex => .error ex
    | .ok true => .ok .invalidRecipient
    | .ok false =>
      match evalInvalidTokenCond e with
      | .error ex => .error ex
      | .ok true => .ok .invalidRecipient
      | .ok false =>
        if is5xx e.code then .ok (.transient e.code) else .ok (.fatal e)

/-- The whole `end` handler: the outer `none` stands for a body
`JSON.parse` rejects (transient, the SyntaxError has no `.code`); a
TypeError thrown inside the `try` block is caught the same way. -/
def endHandler : Option (Option FcmErrorObj) → Outcome
  | none => .transient none
  | some pe =>
    match classifyParsed pe with
    | .ok o => o
    | .error _ => .transient none

/-- How a classification feeds the per-request bookkeeping: a transient
outcome re-enters the retry machinery instead of completing. -/
def resultOfOutcome (device : String) : Outcome → Option (String × ReqResult)
  | .delivered => some (device, .delivered)
  | .invalidRecipient => some (device, .invalid)
  | .transient _ => none
  | .fatal e => some (device, .failed (.gatewayError e))

/-! Retry decision (`errorHandler`, src/index.js lines 204-227, and the
`tries++` of line 270). `tries` counts attempts already started when the
handler runs. -/

def dataHasServerError (data : String) : Bool :=
  !data.isEmpty && strIncludes data "Server Error"

/-- The guard
`tries <= 3 || (err && err.code >= 500 && err.code < 600 && tries < 10) || (data && data.includes('Server Error') && tries < 10)`. -/
def shouldRetry (tries : Nat) (errCode : Option Int) (data : String) : Bool :=
  decide (tries ≤ 3) || (is5xx errCode && decide (tries < 10))
    || (dataHasServerError data && decide (tries < 10))

inductive HandlerAction
  | scheduleResend (delayMs : Nat)
  | ignore
  | completeWithError
deriving DecidableEq

/-- `errorHandler`: within budget it schedules a 1000 ms re-send unless a
retry is already pending; out of budget it completes the request through
`doneCallback(err)`. -/
def errorHandler (tries : Nat) (errCode : Option Int) (data : String)
    (retrying : Bool) : HandlerAction :=
  if shouldRetry tries errCode data then
    if retrying then .ignore else .scheduleResend 1000
  else
    .completeWithError

/-- Worst-case retry loop for one request whose every attempt fails with
the same error shape: each attempt increments `tries`, then the handler
either schedules another attempt or stops. Returns the final `tries`. -/
def retryRun (errCode : Option Int) (data : String) : Nat → Nat → Nat
  | 0, tries => tries
  | fuel + 1, tries =>
    let t := tries + 1
    if errorHandler t errCode data false = .scheduleResend 1000 then
      retryRun errCode data fuel t
    else
      t

/-! Message cloning (src/index.js lines 175-179):
`let clonedMessage = Object.assign(\x7b\x7d, message); clonedMessage.token = device;`.
JS objects are modelled as association lists of fields whose values are
primitives or references into a heap of nested objects. `Object.assign`
with an empty target copies the top-level field list only: field values
that are references keep pointing at the same heap cell (shallow copy). -/

inductive JsVal
  | prim (s : String)
  | ref (a : Nat)
deriving DecidableEq

/-- A JS object: its own (ordered, duplicate-free in practice) fields. -/
abbrev JsObj := List (String × JsVal)

/-- Heap of nested objects, addressed by position. -/
abbrev JsHeap := List JsObj

def objGet : JsObj → String → Option JsVal
  | [], _ => none
  | (k', v') :: rest, k => if k' = k then some v' else objGet rest k

/-- JS property assignment: overwrite the field if present, else append. -/
def objSet : JsObj → String → JsVal → JsObj
  | [], k, v => [(k, v)]
  | (k', v') :: rest, k, v =>
    if k' = k then (k, v) :: rest else (k', v') :: objSet rest k v

def heapRead (h : JsHeap) (a : Nat) : JsObj :=
  (h.get? a).getD []

def heapWrite (h : JsHeap) (a : Nat) (o : JsObj) : JsHeap :=
  h.set a o

/-- The per-request copy: shallow-clone `message`, then set `token`. -/
def cloneWithToken (message : JsObj) (device : String) : JsObj :=
  objSet message "token" (.prim device)

/-- Read `o.k1.k2` through the heap. -/
def getNested (h : JsHeap) (o : JsObj) (k1 k2 : String) : Option JsVal :=
  match objGet o k1 with
  | some (.ref a) => objGet (heapRead h a) k2
  | _ => none

/-- Mutate `o.k1.k2 = v` through the heap (no-op when `o.k1` is not a
reference, matching that such a write cannot alias anything). -/
def setNested (h : JsHeap) (o : JsObj) (k1 k2 : String) (v : JsVal) : JsHeap :=
  match objGet o k1 with
  | some (.ref a) => heapWrite h a (objSet (heapRead h a) k2 v)
  | _ => h

theorem objGet_objSet_same (o : JsObj) (k : String) (v : JsVal) :
    objGet (objSet o k v) k = some v := by
  induction o with
  | nil => simp [objGet, objSet]
  | cons p rest ih =>
    obtain ⟨k', v'⟩ := p
    by_cases hk : k' = k
    · simp [objSet, objGet, hk]
    · simp [objSet, objGet, hk, ih]

theorem objGet_objSet_other (o : JsObj) (k k' : String) (v : JsVal)
    (hk : k' ≠ k) : objGet (objSet o k v) k' = objGet o k' := by
  have hk2 : ¬k = k' := Ne.symm hk
  induction o with
  | nil => simp [objGet, objSet, hk2]
  | cons p rest ih =>
    obtain ⟨k0, v0⟩ := p
    simp only [objSet]
    by_cases h0 : k0 = k
    · subst h0
      rw [if_pos rfl]
      simp [objGet, hk2]
    · rw [if_neg h0]
      by_cases h1 : k0 = k'
      · simp [objGet, h1]
      · simp [objGet, h1, ih]

theorem heapRead_heapWrite_same (h : JsHeap) (a : Nat) (o : JsObj)
    (ha : a < h.length) : heapRead (heapWrite h a o) a = o := by
  simp [heapRead, heapWrite, List.getElem?_set, ha]

/-! Claim-side formalizations (phrased after the specification text, to
be compared against the embedded code) and shared helper lemmas. -/

/-- Spec condition: the error carries a first detail naming the
gateway-specific unregistered code. -/
def c4UnregisteredCond (e : FcmErrorObj) : Bool :=
  match e.details with
  | some (d :: _) => d.errorCode == some "UNREGISTERED"
  | _ => false

/-- Spec condition: a 400 INVALID_ARGUMENT error whose message names an
invalid registration token. -/
def c4InvalidTokenCond (e : FcmErrorObj) : Bool :=
  e.code == some 400 && e.status == some "INVALID_ARGUMENT" &&
    (match e.message with
     | some m => strIncludes m "not a valid FCM registration token"
     | none => false)

/-- Spec-side applicable retry bound: 10 for 5xx or a server-error
marker in the body, else 3. -/
def claim5Bound (errCode : Option Int) (data : String) : Nat :=
  if is5xx errCode || dataHasServerError data then 10 else 3

theorem findSome_exists_of_mem {α β : Type} (f : α → Option β)
    (l : List α) (x : α) (hx : x ∈ l) (y : β) (hf : f x = some y) :
    ∃ z, l.findSome? f = some z := by
  induction l with
  | nil => cases hx
  | cons a t ih =>
    rw [List.findSome?_cons]
    cases ha : f a with
    | some b => exact ⟨b, rfl⟩
    | none =>
      rcases List.mem_cons.mp hx with hx | hx
      · subst hx; rw [ha] at hf; cases hf
      · exact ih hx

theorem shouldRetry_iff (tries : Nat) (code : Option Int) (data : String) :
    shouldRetry tries code data = true ↔
      (tries ≤ 3 ∨ ((is5xx code || dataHasServerError data) = true ∧ tries < 10)) := by
  simp only [shouldRetry, Bool.or_eq_true, Bool.and_eq_true, decide_eq_true_eq]
  tauto

theorem errorHandler_schedule_iff (tries : Nat) (code : Option Int) (data : String) :
    errorHandler tries code data false = .scheduleResend 1000 ↔
      shouldRetry tries code data = true := by
  unfold errorHandler
  by_cases h : shouldRetry tries code data = true
  · simp [h]
  · rw [Bool.not_eq_true] at h
    simp [h]

theorem retryRun_le_ten (code : Option Int) (data : String) :
    ∀ fuel tries, tries ≤ 9 → retryRun code data fuel tries ≤ 10 := by
  intro fuel
  induction fuel with
  | zero => intro t ht; simp only [retryRun]; omega
  | succ f ih =>
    intro t ht
    simp only [retryRun]
    by_cases h : errorHandler (t + 1) code data false = .scheduleResend 1000
    · rw [if_pos h]
      apply ih
      have hs := (shouldRetry_iff (t + 1) code data).mp
        ((errorHandler_schedule_iff (t + 1) code data).mp h)
      rcases hs with hs | hs <;> omega
    · rw [if_neg h]; omega

theorem retryRun_le_four (code : Option Int) (data : String)
    (h5 : is5xx code = false) (hm : dataHasServerError data = false) :
    ∀ fuel tries, tries ≤ 3 → retryRun code data fuel tries ≤ 4 := by
  intro fuel
  induction fuel with
  | zero => intro t ht; simp only [retryRun]; omega
  | succ f ih =>
    intro t ht
    simp only [retryRun]
    by_cases h : errorHandler (t + 1) code data false = .scheduleResend 1000
    · rw [if_pos h]
      apply ih
      have hs := (shouldRetry_iff (t + 1) code data).mp
        ((errorHandler_schedule_iff (t + 1) code data).mp h)
      rcases hs with hs | hs
      · omega
      · rw [h5, hm] at hs
        simp at hs
    · rw [if_neg h]; omega

theorem batchLimit_pos (n c s : Nat) (hs : 0 < s) : 0 < batchLimit n c s := by
  simp only [batchLimit]
  split <;> omega

/-! Claim theorems. -/

/-- C2: the batch size is `ceil(N / maxConcurrentConnections)`, raised to
`maxConcurrentStreamsAllowed` when the candidate is at most that bound and
never capped back down when it exceeds it; with maxConnections = 10,
maxStreams = 100, N = 50 exactly one batch of 50 is produced, and with
maxConnections = 2, maxStreams = 10, N = 100 two batches of 50 each are
produced. -/
theorem claim2_batch_limit :
    (∀ n c s : Nat, ceilDiv n c ≤ s → batchLimit n c s = s) ∧
    (∀ n c s : Nat, s < ceilDiv n c → batchLimit n c s = ceilDiv n c) ∧
    (∀ ts : List String, ts.length = 50 →
      batchLimit ts.length 10 100 = 100 ∧
      makeBatches ts (batchLimit ts.length 10 100) = [ts]) ∧
    (∀ ts : List String, ts.length = 100 →
      batchLimit ts.length 2 10 = 50 ∧
      makeBatches ts (batchLimit ts.length 2 10) = [ts.take 50, ts.drop 50] ∧
      (ts.take 50).length = 50 ∧ (ts.drop 50).length = 50) := by
  refine ⟨?_, ?_, ?_, ?_⟩
  · intro n c s h
    simp only [batchLimit]
    rw [if_pos h]
  · intro n c s h
    simp only [batchLimit]
    rw [if_neg (by omega)]
  · intro ts hlen
    have hbl : batchLimit ts.length 10 100 = 100 := by
      rw [hlen]; rfl
    refine ⟨hbl, ?_⟩
    rw [hbl, makeBatches_eq ts 100 (by omega),
      if_neg (by intro h; rw [h] at hlen; simp at hlen)]
    rw [List.take_of_length_le (by omega), List.drop_eq_nil_of_le (by omega),
      makeBatches_nil]
  · intro ts hlen
    have hbl : batchLimit ts.length 2 10 = 50 := by
      rw [hlen]; rfl
    refine ⟨hbl, ?_, by simp [List.length_take]; omega, by simp [List.length_drop]; omega⟩
    rw [hbl, makeBatches_eq ts 50 (by omega),
      if_neg (by intro h; rw [h] at hlen; simp at hlen)]
    have hd : (ts.drop 50).length = 50 := by simp [List.length_drop]; omega
    rw [makeBatches_eq (ts.drop 50) 50 (by omega),
      if_neg (by intro h; rw [h] at hd; simp at hd)]
    have h1 : (ts.drop 50).take 50 = ts.drop 50 := List.take_of_length_le (by omega)
    have h2 : (ts.drop 50).drop 50 = [] := List.drop_eq_nil_of_le (by omega)
    rw [h1, h2, makeBatches_nil]

/-- Witness for C2: concrete recipient lists of lengths 50 and 100. -/
theorem claim2_batch_limit_witness :
    batchLimit (List.replicate 50 "t").length 10 100 = 100 ∧
    makeBatches (List.replicate 50 "t") (batchLimit (List.replicate 50 "t").length 10 100)
      = [List.replicate 50 "t"] ∧
    makeBatches (List.replicate 100 "u") (batchLimit (List.replicate 100 "u").length 2 10)
      = [(List.replicate 100 "u").take 50, (List.replicate 100 "u").drop 50] :=
  ⟨(claim2_batch_limit.2.2.1 _ (by decide)).1,
   (claim2_batch_limit.2.2.1 _ (by decide)).2,
   (claim2_batch_limit.2.2.2 _ (by decide)).2.1⟩

/-- C3: batching fully partitions the recipient list into consecutive
ordered slices — concatenating the batches gives back the list, every
batch except possibly the last has exactly the computed size, every batch
is at most that size, and batch count times batch size covers N. -/
theorem claim3_batching_partitions (ts : List String) (c s : Nat) (hs : 0 < s) :
    ((makeBatches ts (batchLimit ts.length c s)).flatten = ts) ∧
    (∀ b ∈ (makeBatches ts (batchLimit ts.length c s)).dropLast,
      b.length = batchLimit ts.length c s) ∧
    (∀ b ∈ makeBatches ts (batchLimit ts.length c s),
      b.length ≤ batchLimit ts.length c s) ∧
    ts.length ≤ (makeBatches ts (batchLimit ts.length c s)).length
      * batchLimit ts.length c s := by
  have hl : 0 < batchLimit ts.length c s := batchLimit_pos ts.length c s hs
  exact ⟨makeBatches_join _ hl ts, makeBatches_dropLast_length _ hl ts,
    fun b hb => (makeBatches_mem_length _ hl ts b hb).1,
    makeBatches_count_mul _ hl ts⟩

/-- Witness for C3: five tokens, maxConnections = 2, maxStreams = 1. -/
theorem claim3_batching_partitions_witness :
    (0 : Nat) < 1 ∧
    (makeBatches ["a", "b", "c", "d", "e"]
      (batchLimit (["a", "b", "c", "d", "e"] : List String).length 2 1)).flatten
      = ["a", "b", "c", "d", "e"] :=
  ⟨by decide, (claim3_batching_partitions ["a", "b", "c", "d", "e"] 2 1 (by decide)).1⟩

/-- C8: when the credential structure lacks a usable project identifier,
sendMulticast rejects with the configuration error and performs no
network call, the bearer-token fetch included. -/
theorem claim8_missing_project_id (cfg : ClientConfig) (tokens : List String)
    (fetch : Except JsError String)
    (runBatch : List String → Except JsError (List String))
    (hpid : jsTruthyStr cfg.serviceAccount.project_id = false) :
    sendMulticastModel cfg tokens fetch runBatch
      = (.rejected .projectIdError, []) := by
  simp [sendMulticastModel, hpid]

/-- Witness for C8: a service account whose project id is absent. -/
theorem claim8_missing_project_id_witness :
    sendMulticastModel ⟨⟨none, some "a@x", some "k"⟩, 10, 100⟩ ["d1"]
      (.ok "tok") (fun _b => .ok [])
      = (.rejected .projectIdError, []) :=
  claim8_missing_project_id _ _ _ _ (by decide)

/-- C9: with a project identifier present and a successful token fetch,
an empty recipient list yields zero batches and the promise never
settles — the per-batch completion callback guarding `resolve` never
runs, so the operation is pending forever. -/
theorem claim9_empty_tokens_pending (cfg : ClientConfig) (tok : String)
    (runBatch : List String → Except JsError (List String))
    (hpid : jsTruthyStr cfg.serviceAccount.project_id = true) :
    makeBatches ([] : List String)
      (batchLimit 0 cfg.maxConcurrentConnections cfg.maxConcurrentStreamsAllowed)
      = [] ∧
    sendMulticastModel cfg [] (.ok tok) runBatch = (.pending, [.tokenFetch]) := by
  refine ⟨makeBatches_nil _, ?_⟩
  simp [sendMulticastModel, hpid, makeBatches_nil, aggregateSend]

/-- Witness for C9: the default configuration with a present project id. -/
theorem claim9_empty_tokens_pending_witness :
    sendMulticastModel ⟨⟨some "proj", some "a@x", some "k"⟩, 10, 100⟩ []
      (.ok "tok") (fun _b => .ok []) = (.pending, [.tokenFetch]) :=
  (claim9_empty_tokens_pending _ "tok" _ (by decide)).2

/-- C1 counterexample: one request that exhausted its retries (the
handler completes it through `doneCallback(err)`) rejects the whole
operation even though the sibling request delivered, so a valid outcome
was available: the claim that such a failure is not surfaced as the
operation's fatal error is false of the code. -/
theorem claim1_counterexample :
    errorHandler 4 none "" false = .completeWithError ∧
    (sendMulticastModel ⟨⟨some "proj", some "a@x", some "k"⟩, 10, 100⟩
      ["d1", "d2"] (.ok "tok")
      (fun _b => processBatchModel
        [("d1", .delivered), ("d2", .failed (.transportError none))])).1
      = .rejected (.transportError none) := by decide

/-- C1 amended: exhausting the retry bound completes the request with
its error; that error is passed to the batch completion callback, the
batch rejects, and the overall operation rejects with a batch error —
the operation still reaches a terminal settled state, but the per-request
failure is surfaced as the operation's fatal error. -/
theorem claim1_exhausted_retry_rejects (cfg : ClientConfig)
    (tokens : List String) (tok : String)
    (batchResults : List String → List (String × ReqResult))
    (b : List String) (d : String) (e : JsError)
    (hpid : jsTruthyStr cfg.serviceAccount.project_id = true)
    (hb : b ∈ makeBatches tokens (batchLimit tokens.length
      cfg.maxConcurrentConnections cfg.maxConcurrentStreamsAllowed))
    (hd : (d, ReqResult.failed e) ∈ batchResults b) :
    (∀ tries code data r, shouldRetry tries code data = false →
      errorHandler tries code data r = .completeWithError) ∧
    (∃ e', (sendMulticastModel cfg tokens (.ok tok)
      (fun bb => processBatchModel (batchResults bb))).1 = .rejected e') := by
  constructor
  · intro tries code data r h
    simp [errorHandler, h]
  · obtain ⟨err, herr⟩ := findSome_exists_of_mem reqFailure (batchResults b)
      (d, ReqResult.failed e) hd e rfl
    have hbe : processBatchModel (batchResults b) = .error err := by
      simp [processBatchModel, firstFailure, herr]
    have hmem : Except.error err ∈ (makeBatches tokens (batchLimit tokens.length
        cfg.maxConcurrentConnections cfg.maxConcurrentStreamsAllowed)).map
        (fun bb => processBatchModel (batchResults bb)) := by
      rw [← hbe]
      exact List.mem_map_of_mem _ hb
    obtain ⟨e', he'⟩ := findSome_exists_of_mem batchError _ _ hmem err rfl
    refine ⟨e', ?_⟩
    simp only [sendMulticastModel, hpid, Bool.not_true]
    simp only [Bool.false_eq_true, if_false]
    simp [aggregateSend, he']

/-- Witness for C1 amended: a two-request batch whose second request
permanently failed. -/
theorem claim1_exhausted_retry_rejects_witness :
    ∃ e', (sendMulticastModel ⟨⟨some "proj", some "a@x", some "k"⟩, 10, 100⟩
      ["d1", "d2"] (.ok "tok")
      (fun bb => processBatchModel (List.map (fun d =>
        (d, if d = "d2" then ReqResult.failed .parseError else .delivered)) bb))).1
      = .rejected e' :=
  (claim1_exhausted_retry_rejects _ ["d1", "d2"] "tok" _ ["d1", "d2"] "d2"
    .parseError (by decide) (by decide) (by decide)).2

/-- C5 counterexample: with a non-server error and the retry counter at
the claimed small bound of 3, the code still schedules a re-send
(`tries <= 3`), refuting the claim that a re-send happens only while the
counter is strictly below the applicable bound. -/
theorem claim5_counterexample :
    errorHandler 3 none "" false = .scheduleResend 1000 ∧
    ¬(3 < claim5Bound none "") := by decide

/-- C5 amended: a re-send with the fixed 1000 ms delay is scheduled iff
the attempt counter is at most 3, or the error is 5xx-classified or the
body carries the server-error marker and the counter is below 10; under
repeated failures the counter hence never exceeds 10, and never exceeds
4 when neither server condition holds. -/
theorem claim5_retry_bounds :
    (∀ (tries : Nat) (code : Option Int) (data : String),
      errorHandler tries code data false = .scheduleResend 1000 ↔
        (tries ≤ 3 ∨ ((is5xx code || dataHasServerError data) = true ∧ tries < 10))) ∧
    (∀ (fuel : Nat) (code : Option Int) (data : String),
      retryRun code data fuel 0 ≤ 10) ∧
    (∀ (fuel : Nat) (code : Option Int) (data : String),
      is5xx code = false → dataHasServerError data = false →
      retryRun code data fuel 0 ≤ 4) := by
  refine ⟨?_, ?_, ?_⟩
  · intro tries code data
    rw [errorHandler_schedule_iff, shouldRetry_iff]
  · intro fuel code data
    exact retryRun_le_ten code data fuel 0 (by omega)
  · intro fuel code data h5 hm
    exact retryRun_le_four code data h5 hm fuel 0 (by omega)

/-- Witness for C5 amended: concrete retry traces for a non-server error
and a 503 server error. -/
theorem claim5_retry_bounds_witness :
    errorHandler 2 none "" false = .scheduleResend 1000 ∧
    retryRun (some 503) "" 15 0 ≤ 10 ∧
    retryRun none "" 15 0 ≤ 4 :=
  ⟨(claim5_retry_bounds.1 2 none "").mpr (Or.inl (by omega)),
   claim5_retry_bounds.2.1 15 (some 503) "",
   claim5_retry_bounds.2.2 15 none "" (by decide) (by decide)⟩

/-- C10: a parsed error whose `details` field is a present-but-empty
array makes the unregistered check read `details[0].errorCode` on an
undefined element; the TypeError is caught by the handler and the
response is classified as a transient failure fed to the retry
mechanism, regardless of its own error code. -/
theorem claim10_empty_details_transient (e : FcmErrorObj)
    (hd : e.details = some [])
    (hcond : c4InvalidTokenCond e = false) :
    evalUnregisteredCond e.details = .error .typeErr ∧
    classifyParsed (some e) = .error .typeErr ∧
    endHandler (some (some e)) = .transient none := by
  rw [hd]
  refine ⟨rfl, ?_, ?_⟩ <;> simp [classifyParsed, endHandler, hd, evalUnregisteredCond]

/-- Witness for C10: a 403 error carrying an empty details array. -/
theorem claim10_empty_details_transient_witness :
    endHandler (some (some ⟨some [], some 403, some "PERMISSION_DENIED",
      some "denied"⟩)) = .transient none :=
  (claim10_empty_details_transient _ rfl (by decide)).2.2

theorem endHandler_c1_false (e : FcmErrorObj)
    (h1 : evalUnregisteredCond e.details = .ok false) :
    (endHandler (some (some e)) = .invalidRecipient ↔
      c4InvalidTokenCond e = true) := by
  simp only [endHandler, classifyParsed, h1]
  by_cases hcs : (e.code == some 400 && e.status == some "INVALID_ARGUMENT") = true
  · cases hmsg : e.message with
    | none =>
      simp [evalInvalidTokenCond, hcs, hmsg, c4InvalidTokenCond]
    | some m =>
      by_cases hinc : strIncludes m "not a valid FCM registration token" = true
      · simp [evalInvalidTokenCond, hcs, hmsg, hinc, c4InvalidTokenCond]
      · rw [Bool.not_eq_true] at hinc
        by_cases h5 : is5xx e.code = true
        · simp [evalInvalidTokenCond, hcs, hmsg, hinc, c4InvalidTokenCond, h5]
        · rw [Bool.not_eq_true] at h5
          simp [evalInvalidTokenCond, hcs, hmsg, hinc, c4InvalidTokenCond, h5]
  · rw [Bool.not_eq_true] at hcs
    by_cases h5 : is5xx e.code = true
    · simp [evalInvalidTokenCond, hcs, c4InvalidTokenCond, h5]
    · rw [Bool.not_eq_true] at h5
      simp [evalInvalidTokenCond, hcs, c4InvalidTokenCond, h5]

/-- C4 counterexample: an error whose `details` is a present-but-empty
array while the 400 INVALID_ARGUMENT condition holds satisfies the
claim's membership condition, yet the code classifies the response as a
transient failure (the unregistered check throws on `details[0]`), so the
recipient is not added to the invalid list. -/
theorem claim4_counterexample :
    (c4UnregisteredCond ⟨some [], some 400, some "INVALID_ARGUMENT",
        some "The registration token is not a valid FCM registration token"⟩ ||
      c4InvalidTokenCond ⟨some [], some 400, some "INVALID_ARGUMENT",
        some "The registration token is not a valid FCM registration token"⟩) = true ∧
    endHandler (some (some ⟨some [], some 400, some "INVALID_ARGUMENT",
        some "The registration token is not a valid FCM registration token"⟩))
      ≠ .invalidRecipient ∧
    endHandler (some (some ⟨some [], some 400, some "INVALID_ARGUMENT",
        some "The registration token is not a valid FCM registration token"⟩))
      = .transient none := by decide

/-- C4 amended: classification yields invalid-recipient exactly when the
first detail carries errorCode UNREGISTERED, or the 400 INVALID_ARGUMENT
invalid-token condition holds and `details` is not a present-but-empty
array (that case throws and is retried as transient); an invalid
recipient is not a failure, a delivered response contributes nothing to
the connection's invalid list, and each invalid classification
contributes exactly one entry. -/
theorem claim4_invalid_recipient_classification (e : FcmErrorObj)
    (pre post : List (String × ReqResult)) (d : String) :
    (endHandler (some (some e)) = .invalidRecipient ↔
      (c4UnregisteredCond e = true ∨
        (e.details ≠ some [] ∧ c4InvalidTokenCond e = true))) ∧
    endHandler (some none) = .delivered ∧
    resultOfOutcome d .invalidRecipient = some (d, .invalid) ∧
    reqFailure (d, .invalid) = none ∧
    batchUnregistered (pre ++ (d, .delivered) :: post)
      = batchUnregistered (pre ++ post) ∧
    batchUnregistered (pre ++ (d, .invalid) :: post)
      = batchUnregistered pre ++ d :: batchUnregistered post := by
  refine ⟨?_, rfl, rfl, rfl, ?_, ?_⟩
  · obtain ⟨det, code, status, msg⟩ := e
    cases det with
    | none =>
      rw [endHandler_c1_false ⟨none, code, status, msg⟩ rfl]
      simp [c4UnregisteredCond]
    | some l =>
      cases l with
      | nil =>
        have ht : endHandler (some (some ⟨some [], code, status, msg⟩))
            = .transient none := by
          simp [endHandler, classifyParsed, evalUnregisteredCond]
        rw [ht]
        simp [c4UnregisteredCond]
      | cons d0 rest =>
        by_cases hd0 : (d0.errorCode == some "UNREGISTERED") = true
        · have hi : endHandler (some (some ⟨some (d0 :: rest), code, status, msg⟩))
              = .invalidRecipient := by
            simp [endHandler, classifyParsed, evalUnregisteredCond, hd0]
          rw [hi]
          simp [c4UnregisteredCond, hd0]
        · rw [Bool.not_eq_true] at hd0
          rw [endHandler_c1_false _ (by simp [evalUnregisteredCond, hd0])]
          simp [c4UnregisteredCond, hd0]
  · simp [batchUnregistered, List.filterMap_append, List.filterMap_cons]
  · simp [batchUnregistered, List.filterMap_append, List.filterMap_cons]

/-- C6: the spec requires configuration to be scoped per client
instance, but `config` is one module-global binding: constructing a
second client overwrites the configuration that the first client's
subsequent sends read. Evaluated at the failing input, two constructions
with different concurrency options. -/
theorem claim6_shared_config_overwritten :
    ((clientCtor (clientCtor initialState
        ⟨some ⟨some "proj-a", some "a@x", some "k1"⟩, some 2, some 10⟩).1
        ⟨some ⟨some "proj-b", some "b@x", some "k2"⟩, some 7, some 20⟩).1).config
      = mkConfig ⟨some ⟨some "proj-b", some "b@x", some "k2"⟩, some 7, some 20⟩ ∧
    ClientConfig.maxConcurrentConnections ((clientCtor (clientCtor initialState
        ⟨some ⟨some "proj-a", some "a@x", some "k1"⟩, some 2, some 10⟩).1
        ⟨some ⟨some "proj-b", some "b@x", some "k2"⟩, some 7, some 20⟩).1).config = 7 ∧
    ClientConfig.maxConcurrentConnections
      (mkConfig ⟨some ⟨some "proj-a", some "a@x", some "k1"⟩, some 2, some 10⟩) = 2 := by decide

/-- C7 counterexample: the per-request copy is a shallow clone, so a
nested object is shared by reference: mutating `copy.data.x` changes the
value observed through the original message and through the copy made
for another recipient. -/
theorem claim7_counterexample :
    getNested [[("x", .prim "1")]] [("data", .ref 0)] "data" "x"
      = some (.prim "1") ∧
    getNested (setNested [[("x", .prim "1")]]
        (cloneWithToken [("data", .ref 0)] "t1") "data" "x" (.prim "2"))
      [("data", .ref 0)] "data" "x" = some (.prim "2") ∧
    getNested (setNested [[("x", .prim "1")]]
        (cloneWithToken [("data", .ref 0)] "t1") "data" "x" (.prim "2"))
      (cloneWithToken [("data", .ref 0)] "t2") "data" "x"
      = some (.prim "2") := by decide

/-- C7 amended: the per-request copy equals the caller's message with a
`token` field set to the recipient — every other top-level field is
preserved — but the clone is shallow: a top-level field holding a
reference keeps referring to the same heap cell, so mutating a nested
field through the copy is observable through the original message. -/
theorem claim7_shallow_clone (m : JsObj) (dv k k2 : String) (a : Nat)
    (h : JsHeap) (v : JsVal)
    (hk : k ≠ "token") (href : objGet m k = some (.ref a))
    (ha : a < h.length) :
    objGet (cloneWithToken m dv) "token" = some (.prim dv) ∧
    (∀ k', k' ≠ "token" → objGet (cloneWithToken m dv) k' = objGet m k') ∧
    objGet (cloneWithToken m dv) k = some (.ref a) ∧
    getNested (setNested h (cloneWithToken m dv) k k2 v) m k k2 = some v := by
  have hpres : ∀ k', k' ≠ "token" →
      objGet (cloneWithToken m dv) k' = objGet m k' := by
    intro k' hk'
    exact objGet_objSet_other m "token" k' (.prim dv) hk'
  have hclone : objGet (cloneWithToken m dv) k = some (.ref a) := by
    rw [hpres k hk]; exact href
  refine ⟨objGet_objSet_same m "token" (.prim dv), hpres, hclone, ?_⟩
  simp only [setNested, hclone, getNested, href]
  rw [heapRead_heapWrite_same h a _ ha]
  exact objGet_objSet_same _ k2 v

/-- Witness for C7 amended: a message holding one nested object. -/
theorem claim7_shallow_clone_witness :
    getNested (setNested [[("x", .prim "1")]]
        (cloneWithToken [("data", .ref 0)] "t9") "data" "y" (.prim "7"))
      [("data", .ref 0)] "data" "y" = some (.prim "7") :=
  (claim7_shallow_clone [("data", .ref 0)] "t9" "data" "y" 0
    [[("x", .prim "1")]] (.prim "7") (by decide) (by decide) (by decide)).2.2.2

end FcmHttp2
